import Mathlib

/-!
Verification of the context-aware research assistant's core pipeline against
its specification.  The Python source is shallowly embedded: Python values
are modelled by `PyVal`, the Neo4j property graph by `GraphState`, and each
method of `Neo4jStore`, `GraphRAGRetriever`, `EntityExtractor`, `QueryEngine`
and `DocumentChunker` by an executable Lean function that mirrors the
source line by line.
-/

namespace RA

/-- Model of a Python value as it occurs in this code base: JSON-style data
plus the Neo4j `datetime()` value.  A Python float is carried as its printed
representation, since the pipeline never computes with floats, it only
classifies them and stringifies them. -/
inductive PyVal where
  | none
  | bool (b : Bool)
  | int (n : Int)
  | float (repr : String)
  | str (s : String)
  | datetime (t : Nat)
  | list (items : List PyVal)
  | dict (entries : List (String × PyVal))
deriving Repr

mutual

/-- Decidable equality for `PyVal` (the derive handler does not support this
nested inductive, so it is spelled out). -/
def pyValDecEq : (a b : PyVal) → Decidable (a = b)
  | .none, .none => .isTrue rfl
  | .bool x, .bool y =>
      match decEq x y with
      | .isTrue h => .isTrue (h ▸ rfl)
      | .isFalse h => .isFalse (fun hh => h (PyVal.bool.inj hh))
  | .int x, .int y =>
      match decEq x y with
      | .isTrue h => .isTrue (h ▸ rfl)
      | .isFalse h => .isFalse (fun hh => h (PyVal.int.inj hh))
  | .float x, .float y =>
      match decEq x y with
      | .isTrue h => .isTrue (h ▸ rfl)
      | .isFalse h => .isFalse (fun hh => h (PyVal.float.inj hh))
  | .str x, .str y =>
      match decEq x y with
      | .isTrue h => .isTrue (h ▸ rfl)
      | .isFalse h => .isFalse (fun hh => h (PyVal.str.inj hh))
  | .datetime x, .datetime y =>
      match decEq x y with
      | .isTrue h => .isTrue (h ▸ rfl)
      | .isFalse h => .isFalse (fun hh => h (PyVal.datetime.inj hh))
  | .list x, .list y =>
      match pyValListDecEq x y with
      | .isTrue h => .isTrue (h ▸ rfl)
      | .isFalse h => .isFalse (fun hh => h (PyVal.list.inj hh))
  | .dict x, .dict y =>
      match pyValDictDecEq x y with
      | .isTrue h => .isTrue (h ▸ rfl)
      | .isFalse h => .isFalse (fun hh => h (PyVal.dict.inj hh))
  | .none, .bool _ | .none, .int _ | .none, .float _ | .none, .str _
  | .none, .datetime _ | .none, .list _ | .none, .dict _
  | .bool _, .none | .bool _, .int _ | .bool _, .float _ | .bool _, .str _
  | .bool _, .datetime _ | .bool _, .list _ | .bool _, .dict _
  | .int _, .none | .int _, .bool _ | .int _, .float _ | .int _, .str _
  | .int _, .datetime _ | .int _, .list _ | .int _, .dict _
  | .float _, .none | .float _, .bool _ | .float _, .int _ | .float _, .str _
  | .float _, .datetime _ | .float _, .list _ | .float _, .dict _
  | .str _, .none | .str _, .bool _ | .str _, .int _ | .str _, .float _
  | .str _, .datetime _ | .str _, .list _ | .str _, .dict _
  | .datetime _, .none | .datetime _, .bool _ | .datetime _, .int _
  | .datetime _, .float _ | .datetime _, .str _ | .datetime _, .list _
  | .datetime _, .dict _
  | .list _, .none | .list _, .bool _ | .list _, .int _ | .list _, .float _
  | .list _, .str _ | .list _, .datetime _ | .list _, .dict _
  | .dict _, .none | .dict _, .bool _ | .dict _, .int _ | .dict _, .float _
  | .dict _, .str _ | .dict _, .datetime _ | .dict _, .list _ =>
      .isFalse (fun h => PyVal.noConfusion h)

/-- Decidable equality for lists of `PyVal`. -/
def pyValListDecEq : (x y : List PyVal) → Decidable (x = y)
  | [], [] => .isTrue rfl
  | [], _ :: _ => .isFalse (fun h => List.noConfusion h)
  | _ :: _, [] => .isFalse (fun h => List.noConfusion h)
  | a :: as, b :: bs =>
      match pyValDecEq a b, pyValListDecEq as bs with
      | .isTrue h1, .isTrue h2 => .isTrue (by rw [h1, h2])
      | .isFalse h1, _ => .isFalse (fun hh => h1 (by injection hh))
      | _, .isFalse h2 => .isFalse (fun hh => h2 (by injection hh))

/-- Decidable equality for dict entry lists. -/
def pyValDictDecEq : (x y : List (String × PyVal)) → Decidable (x = y)
  | [], [] => .isTrue rfl
  | [], _ :: _ => .isFalse (fun h => List.noConfusion h)
  | (k1, v1) :: as, (k2, v2) :: bs =>
      match decEq k1 k2, pyValDecEq v1 v2, pyValDictDecEq as bs with
      | .isTrue h0, .isTrue h1, .isTrue h2 => .isTrue (by rw [h0, h1, h2])
      | .isFalse h0, _, _ =>
          .isFalse (fun hh => h0 (congrArg (fun l => (l.headD (k1, v1)).1) hh))
      | _, .isFalse h1, _ =>
          .isFalse (fun hh => h1 (congrArg (fun l => (l.headD (k1, v1)).2) hh))
      | _, _, .isFalse h2 => .isFalse (fun hh => h2 (by injection hh))
  | _ :: _, [] => .isFalse (fun h => List.noConfusion h)

end

instance : DecidableEq PyVal := pyValDecEq

/-- Python truthiness (`if value:`): `None`, `False`, `0`, `""`, `[]` and
an empty dict are falsy, everything else truthy. -/
def pyTruthy : PyVal → Bool
  | .none => false
  | .bool b => b
  | .int n => n != 0
  | .float r => r != "0.0"
  | .str s => s != ""
  | .datetime _ => true
  | .list items => !items.isEmpty
  | .dict entries => !entries.isEmpty

mutual

/-- Model of `Neo4jStore._is_primitive`: `None`, `str`, `int`, `float` and
`bool` are primitive, a list is primitive when all its items are, and
everything else (dicts, datetime objects) is not. -/
def is_primitive : PyVal → Bool
  | .none => true
  | .bool _ => true
  | .int _ => true
  | .float _ => true
  | .str _ => true
  | .datetime _ => false
  | .list items => isPrimitiveList items
  | .dict _ => false

/-- All elements of a list are primitive. -/
def isPrimitiveList : List PyVal → Bool
  | [] => true
  | v :: vs => is_primitive v && isPrimitiveList vs

end

mutual

/-- Model of Python `str(value)` for the values above. -/
def pyStr : PyVal → String
  | .none => "None"
  | .bool b => if b then "True" else "False"
  | .int n => toString n
  | .float r => r
  | .str s => s
  | .datetime t => "datetime#" ++ toString t
  | .list items => "[" ++ pyStrCommaList items ++ "]"
  | .dict entries => "\x7b" ++ pyStrCommaDict entries ++ "\x7d"

/-- Model of Python `repr(value)`: like `str` except that strings are
quoted (Python renders container elements with `repr`). -/
def pyRepr : PyVal → String
  | .str s => "\x27" ++ s ++ "\x27"
  | v => pyStrAgain v

/-- Helper sharing `pyStr`'s clauses so that `pyRepr` can fall back to it. -/
def pyStrAgain : PyVal → String
  | .none => "None"
  | .bool b => if b then "True" else "False"
  | .int n => toString n
  | .float r => r
  | .str s => s
  | .datetime t => "datetime#" ++ toString t
  | .list items => "[" ++ pyStrCommaList items ++ "]"
  | .dict entries => "\x7b" ++ pyStrCommaDict entries ++ "\x7d"

/-- Comma-separated `repr` of list elements. -/
def pyStrCommaList : List PyVal → String
  | [] => ""
  | [v] => pyRepr v
  | v :: vs => pyRepr v ++ ", " ++ pyStrCommaList vs

/-- Comma-separated `repr` of dict entries. -/
def pyStrCommaDict : List (String × PyVal) → String
  | [] => ""
  | [(k, v)] => "\x27" ++ k ++ "\x27: " ++ pyRepr v
  | (k, v) :: kvs => "\x27" ++ k ++ "\x27: " ++ pyRepr v ++ ", " ++ pyStrCommaDict kvs

end

/-- Model of `Neo4jStore._flatten_metadata` on the entry list of a dict:
keep an entry whose value passes `_is_primitive`; otherwise, if the value
is a list, keep it with every element coerced to `str`; otherwise drop the
entry. -/
def flatten_metadata : List (String × PyVal) → List (String × PyVal)
  | [] => []
  | (k, v) :: rest =>
    if is_primitive v then (k, v) :: flatten_metadata rest
    else
      match v with
      | .list items =>
          (k, .list (items.map (fun it => .str (pyStr it)))) :: flatten_metadata rest
      | _ => flatten_metadata rest

/-- Model of `Neo4jStore._flatten_metadata` on an arbitrary value, including
its `isinstance(metadata, dict)` guard: non-dicts flatten to the empty map. -/
def flattenPy : PyVal → List (String × PyVal)
  | .dict entries => flatten_metadata entries
  | _ => []

/-! ## The property graph state

Nodes carry labels and a property map (the Neo4j `id` is an ordinary
property, which is how the Cypher in `neo4j_store.py` treats it).
Relationships reference nodes by their index in the node list, so that two
nodes that happen to share an `id` property stay distinct, as they do in the
database. -/

/-- A property on a dict/property map: look up by key (Python `d.get(k)`,
first match wins, `none` when absent). -/
def lookupProp (props : List (String × PyVal)) (key : String) : Option PyVal :=
  match props with
  | [] => Option.none
  | (k0, v0) :: rest => if k0 = key then some v0 else lookupProp rest key

/-- Python dict assignment `d[k] = v`: update in place when the key exists,
append otherwise. -/
def dictSet : List (String × PyVal) → String → PyVal → List (String × PyVal)
  | [], k, v => [(k, v)]
  | (k', v') :: rest, k, v =>
      if k' = k then (k, v) :: rest else (k', v') :: dictSet rest k v

/-- Cypher `SET n.k = v`: like dict assignment, except that setting a
property to `null` removes it (Neo4j semantics). -/
def cypherSetProp (props : List (String × PyVal)) (k : String) (v : PyVal) :
    List (String × PyVal) :=
  match v with
  | .none => props.filter (fun kv => !(kv.1 == k))
  | _ => dictSet props k v

/-- Apply a list of Cypher `SET` clauses in order. -/
def cypherSetProps (props : List (String × PyVal))
    (updates : List (String × PyVal)) : List (String × PyVal) :=
  updates.foldl (fun acc kv => cypherSetProp acc kv.1 kv.2) props

/-- A graph node: labels plus a property map. -/
structure GNode where
  labels : List String
  props : List (String × PyVal)
deriving Repr, DecidableEq

/-- A relationship: endpoint node indices, type and a property map. -/
structure GRel where
  src : Nat
  dst : Nat
  typ : String
  props : List (String × PyVal)
deriving Repr, DecidableEq

/-- The Neo4j database state. -/
structure GraphState where
  nodes : List GNode
  rels : List GRel
deriving Repr, DecidableEq

/-- Node used as an out-of-range default. -/
def defaultGNode : GNode := { labels := [], props := [] }

/-- Indices of nodes matching a Cypher node pattern `(n:Label {id: v})`
(label optional). -/
def matchingIdxs (st : GraphState) (label : Option String) (idVal : PyVal) :
    List Nat :=
  (st.nodes.enum.filter (fun p =>
    (match label with
     | .some l => decide (l ∈ p.2.labels)
     | .none => true)
    && lookupProp p.2.props "id" == some idVal)).map (·.1)

/-- Cypher `MERGE (n:Label {id: v})`: bind all matching nodes, or create one
carrying exactly the label and the `id` property when there is none.
Returns the new state and the bound node indices. -/
def mergeNode (st : GraphState) (label : String) (idVal : PyVal) :
    GraphState × List Nat :=
  let idxs := matchingIdxs st (some label) idVal
  if idxs.isEmpty then
    ({ st with
        nodes := st.nodes ++ [{ labels := [label], props := [("id", idVal)] }] },
     [st.nodes.length])
  else (st, idxs)

/-- Apply `SET` clauses to every node at one of the given indices. -/
def updateNodesAt (st : GraphState) (idxs : List Nat)
    (updates : List (String × PyVal)) : GraphState :=
  { st with
      nodes := st.nodes.enum.map (fun p =>
        if p.1 ∈ idxs then { p.2 with props := cypherSetProps p.2.props updates }
        else p.2) }

/-- Does a relationship match `(a)-[r:typ]->(b)`? -/
def edgeMatches (a b : Nat) (typ : String) (r : GRel) : Bool :=
  r.src == a && r.dst == b && r.typ == typ

/-- Cypher `MERGE (a)-[r:typ]->(b)`: create the relationship when no such
relationship exists. -/
def mergeEdge (st : GraphState) (a b : Nat) (typ : String) : GraphState :=
  if st.rels.any (edgeMatches a b typ) then st
  else { st with rels := st.rels ++ [{ src := a, dst := b, typ := typ, props := [] }] }

/-- Cypher `MERGE (a)-[r:typ]->(b) SET r...`: merge, then apply the `SET`
clauses to every matching relationship. -/
def mergeEdgeSetProps (st : GraphState) (a b : Nat) (typ : String)
    (updates : List (String × PyVal)) : GraphState :=
  let st1 := mergeEdge st a b typ
  { st1 with
      rels := st1.rels.map (fun r =>
        if edgeMatches a b typ r then { r with props := cypherSetProps r.props updates }
        else r) }

/-! ## `Neo4jStore` write operations -/

/-- Model of `Neo4jStore.create_document_node`.  `now` is the value the
Cypher `datetime()` call returns during this run. -/
def create_document_node (st : GraphState) (now : Nat) (doc_id filename : String)
    (metadata : List (String × PyVal)) : GraphState :=
  let flattened := flatten_metadata metadata
  let set_updates :=
    [("filename", PyVal.str filename), ("created_at", PyVal.datetime now)] ++ flattened
  let merged := mergeNode st "Document" (.str doc_id)
  updateNodesAt merged.1 merged.2 set_updates

/-- Model of `Neo4jStore.create_chunk_node`.  The second component reports
the `result.single()` error raised when no `Document` with `doc_id` exists
(the chunk merge itself has already been applied at that point). -/
def create_chunk_node (st : GraphState) (chunk_id text : String)
    (metadata : List (String × PyVal)) (doc_id : String) :
    GraphState × Option String :=
  let flattened := flatten_metadata metadata
  let chunk_index := (lookupProp metadata "chunk_index").getD (.int 0)
  let set_updates :=
    [("text", PyVal.str text), ("index", chunk_index)]
      ++ flattened.filter (fun kv =>
           !(kv.1 == "chunk_id" || kv.1 == "text" || kv.1 == "chunk_index"))
  let merged := mergeNode st "Chunk" (.str chunk_id)
  let st2 := updateNodesAt merged.1 merged.2 set_updates
  let dIdxs := matchingIdxs st2 (some "Document") (.str doc_id)
  if dIdxs.isEmpty then (st2, some "result.single: no Document matched")
  else
    let pairs := merged.2.flatMap (fun c => dIdxs.map (fun d => (c, d)))
    (pairs.foldl (fun acc cd => mergeEdge acc cd.1 cd.2 "BELONGS_TO") st2, .none)

/-- Model of `Neo4jStore.create_entity_nodes`.  Each entity is a Python
value; a non-dict entity raises (`.get` is missing), reported in the second
component with the state reached so far. -/
def create_entity_nodes (st : GraphState) (entities : List PyVal)
    (chunk_id : String) : GraphState × Option String :=
  match entities with
  | [] => (st, .none)
  | entity :: rest =>
    match entity with
    | .dict e =>
        let entity_type := (lookupProp e "type").getD .none
        let entity_id := (lookupProp e "id").getD .none
        let entity_name := (lookupProp e "name").getD (.str "")
        let properties := (lookupProp e "properties").getD (.dict [])
        if !pyTruthy entity_type || !pyTruthy entity_id then
          create_entity_nodes st rest chunk_id
        else
          let flattened_props := flattenPy properties
          let set_updates := ("name", entity_name) :: flattened_props
          let merged := mergeNode st (pyStr entity_type) entity_id
          let st2 := updateNodesAt merged.1 merged.2 set_updates
          let chIdxs := matchingIdxs st2 (some "Chunk") (.str chunk_id)
          let pairs := merged.2.flatMap (fun a => chIdxs.map (fun b => (a, b)))
          let st3 := pairs.foldl (fun acc p => mergeEdge acc p.1 p.2 "MENTIONED_IN") st2
          create_entity_nodes st3 rest chunk_id
    | _ => (st, some "AttributeError: no attribute get")

/-- Model of `Neo4jStore.create_relationships`.  Each relationship is a
Python value; both endpoint id values must be truthy or the entry is
skipped; endpoints are matched against any node regardless of label and the
relationship is silently dropped when either end matches nothing. -/
def create_relationships (st : GraphState) (relationships : List PyVal) :
    GraphState × Option String :=
  match relationships with
  | [] => (st, .none)
  | rel :: rest =>
    match rel with
    | .dict r =>
        let from_id := (lookupProp r "from").getD .none
        let to_id := (lookupProp r "to").getD .none
        let rel_type := (lookupProp r "type").getD (.str "RELATES_TO")
        let properties := (lookupProp r "properties").getD (.dict [])
        if !pyTruthy from_id || !pyTruthy to_id then
          create_relationships st rest
        else
          let flattened_props := flattenPy properties
          let aIdxs := matchingIdxs st .none from_id
          let bIdxs := matchingIdxs st .none to_id
          let pairs := aIdxs.flatMap (fun a => bIdxs.map (fun b => (a, b)))
          let st1 := pairs.foldl (fun acc p =>
              if flattened_props.isEmpty then
                mergeEdge acc p.1 p.2 (pyStr rel_type)
              else
                mergeEdgeSetProps acc p.1 p.2 (pyStr rel_type) flattened_props) st
          create_relationships st1 rest
    | _ => (st, some "AttributeError: no attribute get")

/-! ## `Neo4jStore` read operations -/

/-- Record returned by `get_chunks_by_ids` (a Python dict with fixed keys;
absent node properties surface as `None`). -/
structure ChunkRec where
  id : PyVal
  text : PyVal
  metadata : List (String × PyVal)
  document_filename : PyVal
deriving Repr, DecidableEq

/-- Does this node satisfy `(ch:Chunk)` with `ch.id IN $chunk_ids`?  A null
(absent) id never satisfies `IN`. -/
def chunkIdIn (chunk_ids : List PyVal) (n : GNode) : Bool :=
  decide ("Chunk" ∈ n.labels) &&
    (match lookupProp n.props "id" with
     | some v => v != PyVal.none && decide (v ∈ chunk_ids)
     | .none => false)

/-- Model of `Neo4jStore.get_chunks_by_ids`: one row per matching chunk and
`BELONGS_TO`-linked document (`OPTIONAL MATCH` yields a single null-document
row when there is none); the metadata map is the node's properties minus
`id`/`text`/`index`, with `chunk_index` re-added from `index` when present. -/
def get_chunks_by_ids (st : GraphState) (chunk_ids : List PyVal) : List ChunkRec :=
  (st.nodes.enum.filter (fun p => chunkIdIn chunk_ids p.2)).flatMap (fun p =>
    let props := p.2.props
    let chunk_id := (lookupProp props "id").getD .none
    let text := (lookupProp props "text").getD .none
    let index := (lookupProp props "index").getD .none
    let metadata0 := props.filter (fun kv =>
      !(kv.1 == "id" || kv.1 == "text" || kv.1 == "index"))
    let metadata :=
      if index = .none then metadata0 else dictSet metadata0 "chunk_index" index
    let docIdxs :=
      ((st.rels.filter (fun r => r.src == p.1 && r.typ == "BELONGS_TO")).map
        (·.dst)).filter (fun d =>
          match st.nodes.get? d with
          | some n => decide ("Document" ∈ n.labels)
          | .none => false)
    if docIdxs.isEmpty then
      [{ id := chunk_id, text := text, metadata := metadata,
         document_filename := .none }]
    else
      docIdxs.map (fun d =>
        { id := chunk_id, text := text, metadata := metadata,
          document_filename :=
            (lookupProp ((st.nodes.getD d defaultGNode).props) "filename").getD .none }))

/-- Endpoints of relationship-distinct undirected walks of length `1..fuel`
starting at node index `u`, avoiding the relationship indices in `used`
(Cypher variable-length patterns never repeat a relationship in a path). -/
def reachAux (st : GraphState) : Nat → Nat → List Nat → List Nat
  | 0, _, _ => []
  | fuel + 1, u, used =>
    (st.rels.enum.filter (fun p =>
        !(used.contains p.1) && (p.2.src == u || p.2.dst == u))).flatMap
      (fun p =>
        let v := if p.2.src == u then p.2.dst else p.2.src
        v :: reachAux st fuel v (p.1 :: used))

/-- Endpoints of arbitrary undirected walks of length `1..fuel` from `u`
(repeated relationships allowed): plain has-a-walk reachability. -/
def plainReach (st : GraphState) : Nat → Nat → List Nat
  | 0, _ => []
  | fuel + 1, u =>
    (st.rels.filter (fun r => r.src == u || r.dst == u)).flatMap
      (fun r =>
        let v := if r.src == u then r.dst else r.src
        v :: plainReach st fuel v)

/-- Indices of the seed nodes matched by `(ch:Chunk)` with
`ch.id IN $chunk_ids`. -/
def seedIdxs (st : GraphState) (chunk_ids : List PyVal) : List Nat :=
  (st.nodes.enum.filter (fun p => chunkIdIn chunk_ids p.2)).map (·.1)

/-- Row returned by the traversal query (a Python dict with fixed keys). -/
structure TravRow where
  id : PyVal
  labels : List String
  name : PyVal
  text : PyVal
  metadata : List (String × PyVal)
  source_chunk_id : PyVal
deriving Repr, DecidableEq

/-- Build the traversal row for a (seed, related) node index pair. -/
def travRowOf (st : GraphState) (seed related : Nat) : TravRow :=
  let rn := st.nodes.getD related defaultGNode
  let sn := st.nodes.getD seed defaultGNode
  { id := (lookupProp rn.props "id").getD .none
    labels := rn.labels
    name := (lookupProp rn.props "name").getD .none
    text := (lookupProp rn.props "text").getD .none
    metadata := rn.props.filter (fun kv =>
      !(kv.1 == "id" || kv.1 == "name" || kv.1 == "text"))
    source_chunk_id := (lookupProp sn.props "id").getD .none }

/-- The `DISTINCT related, ch` pairs of the traversal query, as (seed index,
related index) pairs: one pair per seed and per node reachable from that
seed by a relationship-distinct walk of length `1..max_hops`. -/
def traversePairs (st : GraphState) (chunk_ids : List PyVal) (max_hops : Nat) :
    List (Nat × Nat) :=
  (seedIdxs st chunk_ids).flatMap (fun s =>
    (((List.range st.nodes.length).filter (fun j =>
        (reachAux st max_hops s []).contains j)).map (fun j => (s, j))))

/-- Model of `Neo4jStore.traverse_from_chunks`: one row per `DISTINCT
related, ch` pair, truncated by `LIMIT 100`. -/
def traverse_from_chunks (st : GraphState) (chunk_ids : List PyVal)
    (max_hops : Nat) : List TravRow :=
  ((traversePairs st chunk_ids max_hops).map (fun p => travRowOf st p.1 p.2)).take 100

/-! ## `VectorStore` result handling and the `GraphRAGRetriever`

The vector engine itself is an external collaborator; `retrieve` is modelled
as a function of the engine's ranked result list plus the graph state. -/

/-- One result of `VectorStore.similarity_search` (a Python dict with keys
`text`, `metadata`, `score`, `node_id`). -/
structure VecResult where
  text : String
  metadata : List (String × PyVal)
  score : PyVal
  node_id : String
deriving Repr, DecidableEq

/-- Model of `VectorStore.get_chunk_ids_from_results`: collect
`metadata.chunk_id` of each result, skipping falsy or missing values. -/
def get_chunk_ids_from_results (results : List VecResult) : List PyVal :=
  results.flatMap (fun result =>
    let chunk_id := (lookupProp result.metadata "chunk_id").getD .none
    if pyTruthy chunk_id then [chunk_id] else [])

/-- The `vector`-tagged combined-context item built from a vector result. -/
def vecItem (result : VecResult) : PyVal :=
  .dict [("source", .str "vector"), ("text", .str result.text),
         ("metadata", .dict result.metadata), ("score", result.score)]

/-- The `graph`-tagged combined-context item built from a fetched chunk. -/
def graphItem (chunk : ChunkRec) : PyVal :=
  .dict [("source", .str "graph"), ("text", chunk.text),
         ("metadata", .dict chunk.metadata),
         ("document_filename", chunk.document_filename)]

/-- The `graph_entity`-tagged combined-context item built from a non-chunk
traversal row. -/
def entItem (item : TravRow) : PyVal :=
  .dict [("source", .str "graph_entity"),
         ("type", .str (match item.labels with
                        | [] => "Unknown"
                        | l :: _ => l)),
         ("name", item.name),
         ("metadata", .dict item.metadata),
         ("text", item.text)]

/-- Result dict of `GraphRAGRetriever.retrieve`. -/
structure RetrieveResult where
  vector_results : List VecResult
  graph_context : List TravRow
  combined_context : List PyVal
deriving Repr, DecidableEq

/-- Model of `GraphRAGRetriever.retrieve`, as a function of the vector
engine's ranked results and the graph state. -/
def retrieve (vector_results : List VecResult) (st : GraphState)
    (max_hops : Nat) : RetrieveResult :=
  if vector_results.isEmpty then
    { vector_results := [], graph_context := [], combined_context := [] }
  else
    let chunk_ids := get_chunk_ids_from_results vector_results
    let graph_context := traverse_from_chunks st chunk_ids max_hops
    let graph_chunk_ids :=
      (graph_context.filter (fun item => decide ("Chunk" ∈ item.labels))).map (·.id)
    let graph_chunks :=
      if !graph_chunk_ids.isEmpty then get_chunks_by_ids st graph_chunk_ids else []
    let combined_context :=
      vector_results.map vecItem
        ++ (graph_chunks.filter (fun chunk => !(decide (chunk.id ∈ chunk_ids)))).map
             graphItem
        ++ (graph_context.filter (fun item => !(decide ("Chunk" ∈ item.labels)))).map
             entItem
    { vector_results := vector_results, graph_context := graph_context,
      combined_context := combined_context }

/-- The combined-context items paired with the chunk or node id each one was
built from (a vector item carries its `metadata.chunk_id`): an annotated
companion of `retrieve` used to reason about occurrences. -/
def combinedRefs (vector_results : List VecResult) (st : GraphState)
    (max_hops : Nat) : List (PyVal × PyVal) :=
  if vector_results.isEmpty then []
  else
    let chunk_ids := get_chunk_ids_from_results vector_results
    let graph_context := traverse_from_chunks st chunk_ids max_hops
    let graph_chunk_ids :=
      (graph_context.filter (fun item => decide ("Chunk" ∈ item.labels))).map (·.id)
    let graph_chunks :=
      if !graph_chunk_ids.isEmpty then get_chunks_by_ids st graph_chunk_ids else []
    vector_results.map (fun result =>
        (vecItem result, (lookupProp result.metadata "chunk_id").getD .none))
      ++ ((graph_chunks.filter (fun chunk => !(decide (chunk.id ∈ chunk_ids)))).map
           (fun chunk => (graphItem chunk, chunk.id)))
      ++ ((graph_context.filter (fun item => !(decide ("Chunk" ∈ item.labels)))).map
           (fun item => (entItem item, item.id)))

/-! ## `EntityExtractor` -/

/-- Model of the markdown fence stripping in `EntityExtractor.extract`:
take what stands after a ```json (or plain ```) fence and before the next
fence, stripped. -/
def stripFences (response_text : String) : String :=
  if (response_text.splitOn "```json").length > 1 then
    ((((response_text.splitOn "```json").getD 1 "").splitOn "```").getD 0 "").trim
  else if (response_text.splitOn "```").length > 1 then
    ((((response_text.splitOn "```").getD 1 "").splitOn "```").getD 0 "").trim
  else response_text

/-- The entity-id prefixing loop of `extract`: a dict entity that has an
`id` key gets it rewritten to `<chunk_id>_<id>`; a string entity raises only
when `"id"` occurs in it as a substring (Python `in`), a list entity only
when it contains `"id"`, and other non-dicts raise at the `in` test. -/
def prefix_entity_ids (chunk_id : String) :
    List PyVal → Except String (List PyVal)
  | [] => .ok []
  | entity :: rest => do
    let e ←
      (match entity with
       | .dict d =>
           if (lookupProp d "id").isSome then
             Except.ok (PyVal.dict (dictSet d "id"
               (.str (chunk_id ++ "_" ++ pyStr ((lookupProp d "id").getD .none)))))
           else Except.ok (PyVal.dict d)
       | .str s =>
           if (s.splitOn "id").length > 1 then
             Except.error "TypeError: str does not support item assignment"
           else Except.ok (PyVal.str s)
       | .list items =>
           if PyVal.str "id" ∈ items then
             Except.error "TypeError: list indices must be integers"
           else Except.ok (PyVal.list items)
       | _ => Except.error "TypeError: argument is not iterable")
    let rest2 ← prefix_entity_ids chunk_id rest
    .ok (e :: rest2)

/-- The `entity_id_map` comprehension of `extract`: the ids of the (already
prefixed) entities; a non-dict entity raises. -/
def entity_id_keys : List PyVal → Except String (List PyVal)
  | [] => .ok []
  | .dict d :: rest => do
      let rest2 ← entity_id_keys rest
      .ok ((lookupProp d "id").getD (.str "") :: rest2)
  | _ :: _ => .error "AttributeError: no attribute get"

/-- The relationship-endpoint rewriting loop of `extract`: an endpoint found
among the entity ids is kept, any other endpoint is rewritten to
`<chunk_id>_<endpoint>`; a non-dict relationship raises. -/
def rewrite_relationships (chunk_id : String) (keys : List PyVal) :
    List PyVal → Except String (List PyVal)
  | [] => .ok []
  | .dict r :: rest => do
      let from_id := (lookupProp r "from").getD (.str "")
      let to_id := (lookupProp r "to").getD (.str "")
      let r1 :=
        if from_id ∈ keys then dictSet r "from" from_id
        else dictSet r "from" (.str (chunk_id ++ "_" ++ pyStr from_id))
      let r2 :=
        if to_id ∈ keys then dictSet r1 "to" to_id
        else dictSet r1 "to" (.str (chunk_id ++ "_" ++ pyStr to_id))
      let rest2 ← rewrite_relationships chunk_id keys rest
      .ok (PyVal.dict r2 :: rest2)
  | _ :: _ => .error "AttributeError: no attribute get"

/-- The body of the `try` block of `EntityExtractor.extract`.  The JSON
parser is the external `json.loads`, passed in as `loads` (returning `none`
exactly when it would raise `JSONDecodeError`).  Non-dict parse results and
non-list `entities`/`relationships` values end in an exception on some later
line of the block; they are collapsed to an error here since every such
exception is caught by the same `except` clauses. -/
def extract_core (loads : String → Option PyVal) (response chunk_id : String) :
    Except String (List PyVal × List PyVal) := do
  let response_text := response.trim
  let stripped := stripFences response_text
  match loads stripped with
  | .none => .error "JSONDecodeError"
  | some result =>
    match result with
    | .dict res =>
        (match (lookupProp res "entities").getD (.list []),
               (lookupProp res "relationships").getD (.list []) with
         | .list ents, .list rels => do
             let ents2 ← prefix_entity_ids chunk_id ents
             let keys ← entity_id_keys ents2
             let rels2 ← rewrite_relationships chunk_id keys rels
             .ok (ents2, rels2)
         | _, _ => .error "TypeError: iteration over a non-list")
    | _ => .error "AttributeError: no attribute get"

/-- Model of `EntityExtractor.extract`: the `try` body with every raised
exception caught and turned into `([], [])`. -/
def extract (loads : String → Option PyVal) (response chunk_id : String) :
    List PyVal × List PyVal :=
  match extract_core loads response chunk_id with
  | .ok r => r
  | .error _ => ([], [])

/-! ## `DocumentChunker` and document ids -/

/-- Model of the chunk-building loop of `DocumentChunker.chunk_document`:
the external node parser produced the split texts; each chunk carries the
inherited metadata overridden with `chunk_id`, `chunk_index` and
`total_chunks`. -/
def chunk_document (node_texts : List String)
    (metadata : List (String × PyVal)) : List (String × List (String × PyVal)) :=
  node_texts.enum.map (fun p =>
    let fname := pyStr ((lookupProp metadata "filename").getD (.str "doc"))
    let md1 := dictSet metadata "chunk_id" (.str (fname ++ "_chunk_" ++ toString p.1))
    let md2 := dictSet md1 "chunk_index" (.int p.1)
    let md3 := dictSet md2 "total_chunks" (.int node_texts.length)
    (p.2, md3))

/-- Split a character list on dots (each dot separates two groups). -/
def splitDots : List Char → List (List Char)
  | [] => [[]]
  | c :: rest =>
      let r := splitDots rest
      if c = '.' then [] :: r
      else
        match r with
        | [] => [[c]]
        | g :: gs => (c :: g) :: gs

/-- Model of `pathlib.PurePath.stem` (external library): the final path
component without its last suffix; a leading dot alone does not start a
suffix. -/
def pathStem (name : String) : String :=
  let parts := splitDots name.toList
  match parts with
  | [] => name
  | [_] => name
  | first :: _ =>
      if first.isEmpty && parts.length = 2 then name
      else String.mk (List.intercalate ['.'] parts.dropLast)

/-- Model of the document id derivation in `DocumentService.ingest_document`:
`doc_id = f"doc_{pdf_path.stem}"`. -/
def ingest_doc_id (stem : String) : String := "doc_" ++ stem

/-! ## `QueryEngine` -/

/-- The `retrieval_info` field of a query result: the raw retrieval dict on
the no-context path, the three counts on the success path, and the empty
dict on the error path. -/
inductive RetrievalInfo where
  | raw (r : RetrieveResult)
  | counts (vector_results_count graph_context_count total_context_items : Nat)
  | empty
deriving Repr, DecidableEq

/-- Result dict of `QueryEngine.query`. -/
structure QueryResult where
  answer : String
  sources : List PyVal
  retrieval_info : RetrievalInfo
deriving Repr, DecidableEq

/-- Python `value[:500]` as used on a truthy `text`: slices strings and
lists, raises on other values. -/
def pySlice500 : PyVal → Except String PyVal
  | .str s => .ok (.str (s.take 500))
  | .list items => .ok (.list (items.take 500))
  | _ => .error "TypeError: not subscriptable"

/-- One iteration of `QueryEngine._format_context`: the rendered block for
one context item (`none` when the item renders nothing). -/
def format_item (idx : Nat) (item : PyVal) : Except String (Option String) :=
  match item with
  | .dict d =>
    let source := (lookupProp d "source").getD (.str "unknown")
    let text := (lookupProp d "text").getD (.str "")
    match (lookupProp d "metadata").getD (.dict []) with
    | .dict md =>
      let filename := (lookupProp md "filename").getD
        ((lookupProp d "document_filename").getD (.str "Unknown"))
      if pyTruthy text then do
        let sliced ← pySlice500 text
        .ok (some ("[Source " ++ toString idx ++ "] From: " ++ pyStr filename
          ++ "\nRetrieval method: " ++ pyStr source
          ++ "\nContent: " ++ pyStr sliced ++ "...\n"))
      else
        let nameVal := (lookupProp d "name").getD .none
        if pyTruthy nameVal then
          let entity_type := (lookupProp d "type").getD (.str "Entity")
          .ok (some ("[Source " ++ toString idx ++ "] Entity: "
            ++ pyStr entity_type ++ " - " ++ pyStr nameVal
            ++ "\nRetrieval method: " ++ pyStr source ++ "\n"))
        else .ok .none
    | _ => .error "AttributeError: no attribute get"
  | _ => .error "AttributeError: no attribute get"

/-- The loop of `_format_context` with 1-based enumeration. -/
def format_context_parts (idx : Nat) :
    List PyVal → Except String (List String)
  | [] => .ok []
  | item :: rest => do
      let part ← format_item idx item
      let rest2 ← format_context_parts (idx + 1) rest
      match part with
      | some s => .ok (s :: rest2)
      | .none => .ok rest2

/-- Model of `QueryEngine._format_context`. -/
def format_context (combined_context : List PyVal) : Except String String :=
  (format_context_parts 1 combined_context).map (String.intercalate "\n")

/-- Model of `QueryEngine._extract_sources`: one source dict per first-seen
filename, excluding `"Unknown"`. -/
def extract_sources_aux (seen : List PyVal) :
    List PyVal → Except String (List PyVal)
  | [] => .ok []
  | item :: rest =>
    match item with
    | .dict d =>
      (match (lookupProp d "metadata").getD (.dict []) with
       | .dict md =>
         let filename := (lookupProp md "filename").getD
           ((lookupProp d "document_filename").getD (.str "Unknown"))
         if !(decide (filename ∈ seen)) && filename != PyVal.str "Unknown" then do
           let rest2 ← extract_sources_aux (filename :: seen) rest
           .ok (PyVal.dict
             [("filename", filename),
              ("source_type", (lookupProp d "source").getD (.str "unknown")),
              ("chunk_index", (lookupProp md "chunk_index").getD .none)] :: rest2)
         else extract_sources_aux seen rest
       | _ => .error "AttributeError: no attribute get")
    | _ => .error "AttributeError: no attribute get"

/-- The `QUERY_PROMPT` template of `QueryEngine`, rendered. -/
def query_prompt (context query : String) : String :=
  "You are a helpful research assistant that answers questions using provided document context.\n\nYour task:\n1. Answer the question using the provided context\n2. Explain your reasoning briefly\n3. Cite which document sections were used\n\nContext from documents:\n"
    ++ context
    ++ "\n\nUser question: " ++ query
    ++ "\n\nProvide a comprehensive answer that:\n- Directly addresses the question\n- Explains the reasoning (2-3 sentences)\n- Cites specific document sections/filenames used\n\nAnswer:"

/-- The body of the `try` block of `QueryEngine.query`.  Retrieval and the
LLM call are external steps passed in as `Except`-valued inputs, each
erroring exactly when the corresponding Python call raises. -/
def query_core (retrieval : Except String RetrieveResult)
    (llm_complete : String → Except String String) (query_text : String) :
    Except String QueryResult := do
  let retrieval_result ← retrieval
  let combined_context := retrieval_result.combined_context
  if combined_context.isEmpty then
    .ok { answer := "I couldn\x27t find relevant information in the documents to answer this question.",
          sources := [], retrieval_info := .raw retrieval_result }
  else do
    let formatted_context ← format_context combined_context
    let formatted_prompt := query_prompt formatted_context query_text
    let response ← llm_complete formatted_prompt
    let answer := response.trim
    let sources ← extract_sources_aux [] combined_context
    .ok { answer := answer, sources := sources,
          retrieval_info := .counts retrieval_result.vector_results.length
            retrieval_result.graph_context.length combined_context.length }

/-- Model of `QueryEngine.query`: the `try` body with every raised exception
caught and turned into the fixed error-shaped result. -/
def query (retrieval : Except String RetrieveResult)
    (llm_complete : String → Except String String) (query_text : String) :
    QueryResult :=
  match query_core retrieval llm_complete query_text with
  | .ok r => r
  | .error e =>
      { answer := "Error processing query: " ++ e, sources := [],
        retrieval_info := .empty }

/-! ## Specification-side predicates and shared test fixtures -/

/-- A primitive scalar in the words of the specification: string, integer,
float or boolean. -/
def isPrimScalar : PyVal → Bool
  | .str _ => true
  | .int _ => true
  | .float _ => true
  | .bool _ => true
  | _ => false

/-- The scalar kind of a value, used to state array homogeneity. -/
def scalarKind : PyVal → Nat
  | .str _ => 0
  | .int _ => 1
  | .float _ => 2
  | .bool _ => 3
  | _ => 4

/-- Written from the specification words of C1: a stored property value is
a primitive scalar or a homogeneous array of primitive scalars. -/
def specFlatValue : PyVal → Bool
  | .list items =>
      items.all isPrimScalar &&
        (match items with
         | [] => true
         | x :: xs => xs.all (fun y => scalarKind y == scalarKind x))
  | v => isPrimScalar v

/-- The empty database. -/
def emptyGraph : GraphState := { nodes := [], rels := [] }

/-- Test fixture: two chunks both mentioned by one entity, so that each
chunk is two hops from the other. -/
def cxState : GraphState :=
  { nodes :=
      [ { labels := ["Chunk"], props := [("id", .str "c1"), ("text", .str "t1")] },
        { labels := ["Chunk"], props := [("id", .str "c2"), ("text", .str "t2")] },
        { labels := ["Policy"], props := [("id", .str "e1"), ("name", .str "Leave")] } ],
    rels :=
      [ { src := 2, dst := 0, typ := "MENTIONED_IN", props := [] },
        { src := 2, dst := 1, typ := "MENTIONED_IN", props := [] } ] }

/-- Test fixture: vector result for chunk `c1`. -/
def vecResC1 : VecResult :=
  { text := "t1", metadata := [("chunk_id", .str "c1"), ("filename", .str "f.pdf")],
    score := .float "0.9", node_id := "n1" }

/-- Test fixture: vector result for chunk `c2`. -/
def vecResC2 : VecResult :=
  { text := "t2", metadata := [("chunk_id", .str "c2"), ("filename", .str "f.pdf")],
    score := .float "0.8", node_id := "n2" }

/-- Test fixture: a second, duplicate vector result for chunk `c2`, as the
vector store produces after the same document is indexed twice
(`VectorStore.add_documents` inserts, it does not upsert by id). -/
def vecResC2dup : VecResult :=
  { text := "t2", metadata := [("chunk_id", .str "c2"), ("filename", .str "f.pdf")],
    score := .float "0.7", node_id := "n3" }

/-- The chunk id a combined-context item carries in its metadata. -/
def itemMetaChunkId (item : PyVal) : Option PyVal :=
  match item with
  | .dict d =>
      (match lookupProp d "metadata" with
       | some (.dict md) => lookupProp md "chunk_id"
       | _ => Option.none)
  | _ => Option.none

/-- The `source` tag of a combined-context item. -/
def sourceTag (item : PyVal) : Option PyVal :=
  match item with
  | .dict d => lookupProp d "source"
  | _ => Option.none

/-- Rank of the `source` tag in the fusion order claimed by the spec. -/
def tagRank (item : PyVal) : Nat :=
  match sourceTag item with
  | some (.str "vector") => 0
  | some (.str "graph") => 1
  | some (.str "graph_entity") => 2
  | _ => 3

/-! ## Shared lemmas about property-map operations -/

theorem lookupProp_dictSet_self (props : List (String × PyVal)) (k : String)
    (v : PyVal) : lookupProp (dictSet props k v) k = some v := by
  induction props with
  | nil => simp [dictSet, lookupProp]
  | cons kv rest ih =>
    obtain ⟨k0, v0⟩ := kv
    by_cases h : k0 = k
    · subst h
      simp [dictSet, lookupProp]
    · simp [dictSet, lookupProp, h, ih]

theorem lookupProp_dictSet_ne (props : List (String × PyVal)) (k k2 : String)
    (v : PyVal) (hne : k2 ≠ k) :
    lookupProp (dictSet props k2 v) k = lookupProp props k := by
  induction props with
  | nil => simp [dictSet, lookupProp, hne]
  | cons kv rest ih =>
    obtain ⟨k0, v0⟩ := kv
    by_cases h : k0 = k2
    · subst h
      simp [dictSet, lookupProp, hne]
    · by_cases hk : k0 = k
      · simp [dictSet, lookupProp, h, hk, Ne.symm hne]
      · simp [dictSet, lookupProp, h, hk, Ne.symm hne, ih]

/-! ## Claim C1: property flattening -/

/-- Claim C1, counterexample: the claim states that the flattened map holds
only primitive scalars or homogeneous arrays of primitive scalars, nested
maps being dropped and heterogeneous arrays coerced element-wise to strings.
On this input the code keeps a nested array-of-arrays unchanged, and keeps
a heterogeneous array of primitives unchanged instead of coercing it. -/
theorem C1_counterexample :
    flatten_metadata
        [("k", PyVal.list [PyVal.list [PyVal.int 1]]),
         ("h", PyVal.list [PyVal.int 1, PyVal.str "x"])]
      = [("k", PyVal.list [PyVal.list [PyVal.int 1]]),
         ("h", PyVal.list [PyVal.int 1, PyVal.str "x"])]
    ∧ specFlatValue (PyVal.list [PyVal.list [PyVal.int 1]]) = false
    ∧ specFlatValue (PyVal.list [PyVal.int 1, PyVal.str "x"]) = false
    ∧ PyVal.list [PyVal.int 1, PyVal.str "x"]
        ≠ PyVal.list ([PyVal.int 1, PyVal.str "x"].map
            (fun it => PyVal.str (pyStr it))) := by
  decide

/-- Claim C1 as amended: for every metadata map passed to a node or edge
write, every value of the flattened map either passes the code's recursive
primitivity check (`None`, a primitive scalar, or an arbitrarily nested and
possibly heterogeneous list of such values) and is stored unchanged, or is
a list containing some non-primitive element, stored with every element
coerced to a string; nested map values are never stored. -/
theorem C1_flattened_values (md : List (String × PyVal)) (k : String)
    (v : PyVal) (h : (k, v) ∈ flatten_metadata md) :
    (is_primitive v = true ∨
      ∃ items : List PyVal, isPrimitiveList items = false ∧
        v = PyVal.list (items.map (fun it => PyVal.str (pyStr it))))
    ∧ ∀ entries, v ≠ PyVal.dict entries := by
  induction md with
  | nil => simp [flatten_metadata] at h
  | cons kv rest ih =>
    obtain ⟨k0, v0⟩ := kv
    cases v0 with
    | none =>
      simp only [flatten_metadata, is_primitive, if_true, List.mem_cons] at h
      rcases h with heq | hmem
      · have hv : v = PyVal.none := congrArg Prod.snd heq
        subst hv
        exact ⟨Or.inl rfl, fun entries hc => by cases hc⟩
      · exact ih hmem
    | bool b =>
      simp only [flatten_metadata, is_primitive, if_true, List.mem_cons] at h
      rcases h with heq | hmem
      · have hv : v = PyVal.bool b := congrArg Prod.snd heq
        subst hv
        exact ⟨Or.inl rfl, fun entries hc => by cases hc⟩
      · exact ih hmem
    | int n =>
      simp only [flatten_metadata, is_primitive, if_true, List.mem_cons] at h
      rcases h with heq | hmem
      · have hv : v = PyVal.int n := congrArg Prod.snd heq
        subst hv
        exact ⟨Or.inl rfl, fun entries hc => by cases hc⟩
      · exact ih hmem
    | float r =>
      simp only [flatten_metadata, is_primitive, if_true, List.mem_cons] at h
      rcases h with heq | hmem
      · have hv : v = PyVal.float r := congrArg Prod.snd heq
        subst hv
        exact ⟨Or.inl rfl, fun entries hc => by cases hc⟩
      · exact ih hmem
    | str s =>
      simp only [flatten_metadata, is_primitive, if_true, List.mem_cons] at h
      rcases h with heq | hmem
      · have hv : v = PyVal.str s := congrArg Prod.snd heq
        subst hv
        exact ⟨Or.inl rfl, fun entries hc => by cases hc⟩
      · exact ih hmem
    | datetime t =>
      simp only [flatten_metadata, is_primitive, Bool.false_eq_true, if_false] at h
      exact ih h
    | dict entries0 =>
      simp only [flatten_metadata, is_primitive, Bool.false_eq_true, if_false] at h
      exact ih h
    | list items =>
      cases hb : isPrimitiveList items with
      | true =>
        simp only [flatten_metadata, is_primitive, hb, if_true, List.mem_cons] at h
        rcases h with heq | hmem
        · have hv : v = PyVal.list items := congrArg Prod.snd heq
          subst hv
          refine ⟨Or.inl ?_, fun entries hc => by cases hc⟩
          simp [is_primitive, hb]
        · exact ih hmem
      | false =>
        simp only [flatten_metadata, is_primitive, hb, Bool.false_eq_true, if_false,
          List.mem_cons] at h
        rcases h with heq | hmem
        · have hv : v = PyVal.list (items.map fun it => PyVal.str (pyStr it)) :=
            congrArg Prod.snd heq
          subst hv
          exact ⟨Or.inr ⟨items, hb, rfl⟩, fun entries hc => by cases hc⟩
        · exact ih hmem

/-- Witness for `C1_flattened_values` at a concrete input. -/
theorem C1_flattened_values_witness :
    (("k", PyVal.int 1) ∈ flatten_metadata [("k", PyVal.int 1)])
    ∧ ((is_primitive (PyVal.int 1) = true ∨
        ∃ items : List PyVal, isPrimitiveList items = false ∧
          PyVal.int 1 = PyVal.list (items.map (fun it => PyVal.str (pyStr it))))
       ∧ ∀ entries, PyVal.int 1 ≠ PyVal.dict entries) :=
  ⟨by decide, C1_flattened_values [("k", PyVal.int 1)] "k" (PyVal.int 1) (by decide)⟩

/-! ## Claim C2: idempotence of upserts -/

/-- The document upsert applied to the empty database at time 0. -/
def docUpsertOnce : GraphState :=
  create_document_node emptyGraph 0 "d1" "a.pdf" []

/-- The same document upsert re-run with identical arguments at time 1. -/
def docUpsertTwice : GraphState :=
  create_document_node docUpsertOnce 1 "d1" "a.pdf" []

/-- Claim C2: re-running an upsert with identical arguments must leave node
and edge counts and the final property state identical.  The counts do stay
identical, but `create_document_node` executes a plain
`SET d.created_at = datetime()` on every run (not `ON CREATE SET`), so the
second run overwrites the creation timestamp and the final property state
differs whenever the two runs see different clock values. -/
theorem C2_document_upsert_overwrites_created_at :
    docUpsertTwice.nodes.length = docUpsertOnce.nodes.length
    ∧ docUpsertTwice.rels.length = docUpsertOnce.rels.length
    ∧ docUpsertTwice ≠ docUpsertOnce
    ∧ lookupProp ((docUpsertOnce.nodes.getD 0 defaultGNode).props) "created_at"
        = some (.datetime 0)
    ∧ lookupProp ((docUpsertTwice.nodes.getD 0 defaultGNode).props) "created_at"
        = some (.datetime 1) := by
  decide

/-! ## Claim C3: fusion ordering -/

/-- The graph traversal result inside `retrieve`. -/
def retrieveGraphContext (vrs : List VecResult) (st : GraphState) (mh : Nat) :
    List TravRow :=
  traverse_from_chunks st (get_chunk_ids_from_results vrs) mh

/-- The authoritatively re-fetched chunks inside `retrieve`. -/
def retrieveGraphChunks (vrs : List VecResult) (st : GraphState) (mh : Nat) :
    List ChunkRec :=
  let ids := ((retrieveGraphContext vrs st mh).filter
      (fun item => decide ("Chunk" ∈ item.labels))).map (·.id)
  if !ids.isEmpty then get_chunks_by_ids st ids else []

theorem chunkIdIn_nil (n : GNode) : chunkIdIn [] n = false := by
  unfold chunkIdIn
  cases lookupProp n.props "id" <;> simp

theorem traverse_from_chunks_nil (st : GraphState) (mh : Nat) :
    traverse_from_chunks st [] mh = [] := by
  simp [traverse_from_chunks, traversePairs, seedIdxs, chunkIdIn_nil]

theorem tagRank_vecItem (r : VecResult) : tagRank (vecItem r) = 0 := rfl

theorem tagRank_graphItem (c : ChunkRec) : tagRank (graphItem c) = 1 := rfl

theorem tagRank_entItem (row : TravRow) : tagRank (entItem row) = 2 := rfl

theorem pairwise_rank_const (l : List PyVal) (c : Nat)
    (h : ∀ x ∈ l, tagRank x = c) :
    l.Pairwise (fun a b => tagRank a ≤ tagRank b) := by
  induction l with
  | nil => exact List.Pairwise.nil
  | cons a t ih =>
    refine List.Pairwise.cons ?_ (ih fun x hx => h x (List.mem_cons_of_mem a hx))
    intro b hb
    rw [h a (List.mem_cons_self a t), h b (List.mem_cons_of_mem a hb)]

theorem pairwise_rank_blocks (l1 l2 l3 : List PyVal)
    (h1 : ∀ x ∈ l1, tagRank x = 0) (h2 : ∀ x ∈ l2, tagRank x = 1)
    (h3 : ∀ x ∈ l3, tagRank x = 2) :
    (l1 ++ l2 ++ l3).Pairwise (fun a b => tagRank a ≤ tagRank b) := by
  rw [List.pairwise_append]
  refine ⟨?_, pairwise_rank_const l3 2 h3, ?_⟩
  · rw [List.pairwise_append]
    refine ⟨pairwise_rank_const l1 0 h1, pairwise_rank_const l2 1 h2, ?_⟩
    intro a ha b hb
    rw [h1 a ha, h2 b hb]
    omega
  · intro a ha b hb
    rcases List.mem_append.mp ha with ha1 | ha2
    · rw [h1 a ha1, h3 b hb]; omega
    · rw [h2 a ha2, h3 b hb]; omega

/-- The combined context decomposes into the three blocks the spec names:
the vector results in order, then the graph chunks outside the seed set,
then the non-chunk traversal nodes. -/
theorem retrieve_combined_eq (vrs : List VecResult) (st : GraphState) (mh : Nat) :
    (retrieve vrs st mh).combined_context
      = vrs.map vecItem
        ++ ((retrieveGraphChunks vrs st mh).filter
             (fun c => !(decide (c.id ∈ get_chunk_ids_from_results vrs)))).map
             graphItem
        ++ ((retrieveGraphContext vrs st mh).filter
             (fun item => !(decide ("Chunk" ∈ item.labels)))).map entItem := by
  cases vrs with
  | nil =>
    simp [retrieve, retrieveGraphChunks, retrieveGraphContext,
      get_chunk_ids_from_results, traverse_from_chunks_nil]
  | cons r rs => rfl

/-- Claim C3: the combined context is the vector block (in the ranked input
order), then the graph-chunk block restricted to chunks outside the seed
chunk-id set, then the non-chunk `graph_entity` block, so every item of one
tag precedes every item of a later tag. -/
theorem C3_fusion_ordering (vrs : List VecResult) (st : GraphState) (mh : Nat) :
    (retrieve vrs st mh).combined_context
      = vrs.map vecItem
        ++ ((retrieveGraphChunks vrs st mh).filter
             (fun c => !(decide (c.id ∈ get_chunk_ids_from_results vrs)))).map
             graphItem
        ++ ((retrieveGraphContext vrs st mh).filter
             (fun item => !(decide ("Chunk" ∈ item.labels)))).map entItem
    ∧ (retrieve vrs st mh).combined_context.Pairwise
        (fun a b => tagRank a ≤ tagRank b) := by
  refine ⟨retrieve_combined_eq vrs st mh, ?_⟩
  rw [retrieve_combined_eq vrs st mh]
  refine pairwise_rank_blocks _ _ _ ?_ ?_ ?_
  · intro x hx
    obtain ⟨r, _, rfl⟩ := List.mem_map.mp hx
    exact tagRank_vecItem r
  · intro x hx
    obtain ⟨c, _, rfl⟩ := List.mem_map.mp hx
    exact tagRank_graphItem c
  · intro x hx
    obtain ⟨row, _, rfl⟩ := List.mem_map.mp hx
    exact tagRank_entItem row

/-! ## Claim C4: deduplication against the seed set -/

/-- Claim C4, counterexample: chunk `c2` is in the vector-seed chunk-id set
and is reached by the traversal, yet it occurs twice in the combined
context (both occurrences tagged `vector`), because the vector store holds
duplicate entries for it after re-ingestion and the dedup filter only
guards the graph block. -/
theorem C4_counterexample :
    (PyVal.str "c2")
        ∈ get_chunk_ids_from_results [vecResC1, vecResC2, vecResC2dup]
    ∧ ((retrieveGraphContext [vecResC1, vecResC2, vecResC2dup] cxState 2).countP
        (fun row => row.id == PyVal.str "c2")) = 1
    ∧ ((retrieve [vecResC1, vecResC2, vecResC2dup] cxState 2).combined_context.countP
        (fun item => itemMetaChunkId item == some (PyVal.str "c2")
          && sourceTag item == some (PyVal.str "vector"))) = 2 := by
  decide

/-- Claim C4 as amended: a chunk id occurring both in the vector-seed
chunk-id set and in the traversal result never yields a `graph`-tagged
item, and its `vector`-tagged occurrences are exactly its occurrences among
the vector results (hence exactly one when the vector engine lists it
once). -/
theorem C4_dedup_vector_precedence (vrs : List VecResult) (st : GraphState)
    (mh : Nat) (x : PyVal)
    (hseed : x ∈ get_chunk_ids_from_results vrs)
    (_hreach : ∃ row ∈ retrieveGraphContext vrs st mh, row.id = x) :
    (retrieve vrs st mh).combined_context = (combinedRefs vrs st mh).map Prod.fst
    ∧ (combinedRefs vrs st mh).countP
        (fun p => p.2 == x && (sourceTag p.1 == some (PyVal.str "graph"))) = 0
    ∧ (combinedRefs vrs st mh).countP
        (fun p => p.2 == x && (sourceTag p.1 == some (PyVal.str "vector")))
        = vrs.countP
            (fun r => (lookupProp r.metadata "chunk_id").getD .none == x) := by
  cases vrs with
  | nil => simp [get_chunk_ids_from_results] at hseed
  | cons r rs =>
    have hrefs : combinedRefs (r :: rs) st mh
        = (r :: rs).map (fun result =>
              (vecItem result, (lookupProp result.metadata "chunk_id").getD .none))
          ++ ((retrieveGraphChunks (r :: rs) st mh).filter
               (fun chunk =>
                 !(decide (chunk.id ∈ get_chunk_ids_from_results (r :: rs))))).map
               (fun chunk => (graphItem chunk, chunk.id))
          ++ ((retrieveGraphContext (r :: rs) st mh).filter
               (fun item => !(decide ("Chunk" ∈ item.labels)))).map
               (fun item => (entItem item, item.id)) := rfl
    refine ⟨?_, ?_, ?_⟩
    · rw [hrefs, List.map_append, List.map_append, List.map_map, List.map_map,
        List.map_map]
      exact retrieve_combined_eq (r :: rs) st mh
    · rw [hrefs, List.countP_eq_zero]
      intro p hp
      rcases List.mem_append.mp hp with hp12 | hpC
      · rcases List.mem_append.mp hp12 with hpA | hpB
        · obtain ⟨v, _, rfl⟩ := List.mem_map.mp hpA
          simp [sourceTag, vecItem, lookupProp]
        · obtain ⟨c, hc, rfl⟩ := List.mem_map.mp hpB
          obtain ⟨_, hcid⟩ := List.mem_filter.mp hc
          simp only [Bool.not_eq_true', decide_eq_false_iff_not] at hcid
          simp only [Bool.and_eq_true, beq_iff_eq, not_and]
          intro hcx _
          exact absurd (hcx ▸ hseed) hcid
      · obtain ⟨row, _, rfl⟩ := List.mem_map.mp hpC
        simp [sourceTag, entItem, lookupProp]
    · rw [hrefs, List.countP_append, List.countP_append]
      have hB : (((retrieveGraphChunks (r :: rs) st mh).filter
            (fun chunk =>
              !(decide (chunk.id ∈ get_chunk_ids_from_results (r :: rs))))).map
            (fun chunk => (graphItem chunk, chunk.id))).countP
            (fun p => p.2 == x && (sourceTag p.1 == some (PyVal.str "vector"))) = 0 := by
        rw [List.countP_eq_zero]
        intro p hp
        obtain ⟨c, _, rfl⟩ := List.mem_map.mp hp
        simp [sourceTag, graphItem, lookupProp]
      have hC : (((retrieveGraphContext (r :: rs) st mh).filter
            (fun item => !(decide ("Chunk" ∈ item.labels)))).map
            (fun item => (entItem item, item.id))).countP
            (fun p => p.2 == x && (sourceTag p.1 == some (PyVal.str "vector"))) = 0 := by
        rw [List.countP_eq_zero]
        intro p hp
        obtain ⟨row, _, rfl⟩ := List.mem_map.mp hp
        simp [sourceTag, entItem, lookupProp]
      have hA : ((r :: rs).map (fun result =>
            (vecItem result, (lookupProp result.metadata "chunk_id").getD .none))).countP
            (fun p => p.2 == x && (sourceTag p.1 == some (PyVal.str "vector")))
          = (r :: rs).countP
              (fun v => (lookupProp v.metadata "chunk_id").getD .none == x) := by
        rw [List.countP_map]
        refine List.countP_congr ?_
        intro v _
        simp [Function.comp, sourceTag, vecItem, lookupProp]
      rw [hA, hB, hC]
      omega

/-- Witness for `C4_dedup_vector_precedence` at a concrete input. -/
theorem C4_dedup_vector_precedence_witness :
    ((PyVal.str "c2") ∈ get_chunk_ids_from_results [vecResC1, vecResC2])
    ∧ (∃ row ∈ retrieveGraphContext [vecResC1, vecResC2] cxState 2,
        row.id = PyVal.str "c2")
    ∧ ((retrieve [vecResC1, vecResC2] cxState 2).combined_context
          = (combinedRefs [vecResC1, vecResC2] cxState 2).map Prod.fst
       ∧ (combinedRefs [vecResC1, vecResC2] cxState 2).countP
           (fun p => p.2 == PyVal.str "c2"
             && (sourceTag p.1 == some (PyVal.str "graph"))) = 0
       ∧ (combinedRefs [vecResC1, vecResC2] cxState 2).countP
           (fun p => p.2 == PyVal.str "c2"
             && (sourceTag p.1 == some (PyVal.str "vector")))
           = [vecResC1, vecResC2].countP
               (fun r =>
                 (lookupProp r.metadata "chunk_id").getD .none == PyVal.str "c2")) :=
  ⟨by decide, by decide,
   C4_dedup_vector_precedence [vecResC1, vecResC2] cxState 2 (PyVal.str "c2")
     (by decide) (by decide)⟩

/-! ## Claim C5: shape of the traversal result -/

/-- Claim C5, counterexample: the claim states that no node id appears
twice and that seed chunks are never returned, with first-seen attribution
across seeds.  With seeds `c1`, `c2` both mentioned by entity `e1`, the
query returns one row per `DISTINCT related, ch` pair, so `e1` appears
twice (once per seed) and each seed chunk is returned as a node reached
from the other seed. -/
theorem C5_counterexample :
    ((traverse_from_chunks cxState [PyVal.str "c1", PyVal.str "c2"] 2).countP
        (fun row => row.id == PyVal.str "e1")) = 2
    ∧ ((traverse_from_chunks cxState [PyVal.str "c1", PyVal.str "c2"] 2).countP
        (fun row => row.id == PyVal.str "c1")) = 1
    ∧ ((traverse_from_chunks cxState [PyVal.str "c1", PyVal.str "c2"] 2).countP
        (fun row => row.id == PyVal.str "c2")) = 1 := by
  decide

theorem seedIdxs_nodup (st : GraphState) (chunk_ids : List PyVal) :
    (seedIdxs st chunk_ids).Nodup := by
  unfold seedIdxs
  apply List.Nodup.sublist (List.Sublist.map _ (List.filter_sublist _))
  exact List.nodup_enum_map_fst _

theorem traversePairs_nodup (st : GraphState) (chunk_ids : List PyVal)
    (mh : Nat) : (traversePairs st chunk_ids mh).Nodup := by
  unfold traversePairs
  rw [List.nodup_flatMap]
  constructor
  · intro s _
    refine List.Nodup.map ?_ ((List.nodup_range _).filter _)
    intro a b hab
    exact congrArg Prod.snd hab
  · refine (seedIdxs_nodup st chunk_ids).imp ?_
    intro a b hab x hxa hxb
    obtain ⟨j1, _, rfl⟩ := List.mem_map.mp hxa
    obtain ⟨j2, _, heq⟩ := List.mem_map.mp hxb
    exact hab (congrArg Prod.fst heq).symm

/-- Claim C5 as amended: the traversal returns one row per distinct
(seed, reached node) pair, truncated at 100 rows; the pairs are pairwise
distinct; each pair consists of a matched seed chunk and a node reachable
from that seed by a relationship-distinct walk of at most `maxHops` steps;
and each row is attributed to the seed of its own pair (so a node
reachable from several seeds yields one row per seed, and a seed chunk
reachable from another seed is itself returned). -/
theorem C5_traversal_rows (st : GraphState) (chunk_ids : List PyVal) (mh : Nat) :
    traverse_from_chunks st chunk_ids mh
      = ((traversePairs st chunk_ids mh).map (fun p => travRowOf st p.1 p.2)).take 100
    ∧ (traversePairs st chunk_ids mh).Nodup
    ∧ ∀ p ∈ traversePairs st chunk_ids mh,
        p.1 ∈ seedIdxs st chunk_ids
        ∧ p.2 ∈ reachAux st mh p.1 []
        ∧ (travRowOf st p.1 p.2).source_chunk_id
            = (lookupProp ((st.nodes.getD p.1 defaultGNode).props) "id").getD .none := by
  refine ⟨rfl, traversePairs_nodup st chunk_ids mh, ?_⟩
  intro p hp
  unfold traversePairs at hp
  obtain ⟨s, hs, hp2⟩ := List.mem_flatMap.mp hp
  obtain ⟨j, hj, rfl⟩ := List.mem_map.mp hp2
  obtain ⟨_, hj2⟩ := List.mem_filter.mp hj
  refine ⟨hs, ?_, rfl⟩
  simpa using hj2

/-- Witness for `C5_traversal_rows` at a concrete input. -/
theorem C5_traversal_rows_witness :
    ((0, 1) ∈ traversePairs cxState [PyVal.str "c1", PyVal.str "c2"] 2)
    ∧ ((0 : Nat) ∈ seedIdxs cxState [PyVal.str "c1", PyVal.str "c2"]
       ∧ (1 : Nat) ∈ reachAux cxState 2 0 []
       ∧ (travRowOf cxState 0 1).source_chunk_id
           = (lookupProp ((cxState.nodes.getD 0 defaultGNode).props) "id").getD .none) :=
  ⟨by decide,
   (C5_traversal_rows cxState [PyVal.str "c1", PyVal.str "c2"] 2).2.2 (0, 1)
     (by decide)⟩

/-! ## Claim C6: traversal bound -/

theorem reachAux_subset_plainReach (st : GraphState) :
    ∀ (fuel u : Nat) (used : List Nat) (v : Nat),
      v ∈ reachAux st fuel u used → v ∈ plainReach st fuel u := by
  intro fuel
  induction fuel with
  | zero => intro u used v hv; simp [reachAux] at hv
  | succ fuel ih =>
    intro u used v hv
    simp only [reachAux, List.mem_flatMap] at hv
    obtain ⟨p, hp, hv2⟩ := hv
    obtain ⟨hpmem, hpcond⟩ := List.mem_filter.mp hp
    have hrel : p.2 ∈ st.rels := by
      obtain ⟨i, r⟩ := p
      have := (List.mk_mem_enum_iff_getElem?).mp hpmem
      exact List.getElem?_mem this
    have hinc : (p.2.src == u || p.2.dst == u) = true := by
      simp only [Bool.and_eq_true] at hpcond
      exact hpcond.2
    simp only [plainReach, List.mem_flatMap]
    rcases List.mem_cons.mp hv2 with rfl | hrec
    · exact ⟨p.2, List.mem_filter.mpr ⟨hrel, hinc⟩, List.mem_cons_self _ _⟩
    · exact ⟨p.2, List.mem_filter.mpr ⟨hrel, hinc⟩,
        List.mem_cons_of_mem _ (ih _ _ _ hrec)⟩

/-- Claim C6: the traversal returns at most 100 rows, and every returned
row is built from a node reachable within `maxHops` undirected
relationship steps from some matched seed chunk. -/
theorem C6_traversal_bound (st : GraphState) (chunk_ids : List PyVal) (mh : Nat) :
    (traverse_from_chunks st chunk_ids mh).length ≤ 100
    ∧ ∀ row ∈ traverse_from_chunks st chunk_ids mh,
        ∃ s j, s ∈ seedIdxs st chunk_ids ∧ j ∈ plainReach st mh s
          ∧ row = travRowOf st s j := by
  constructor
  · unfold traverse_from_chunks
    exact List.length_take_le _ _
  · intro row hrow
    unfold traverse_from_chunks at hrow
    have hrow2 := List.take_subset _ _ hrow
    obtain ⟨p, hp, rfl⟩ := List.mem_map.mp hrow2
    unfold traversePairs at hp
    obtain ⟨s, hs, hp2⟩ := List.mem_flatMap.mp hp
    obtain ⟨j, hj, rfl⟩ := List.mem_map.mp hp2
    obtain ⟨_, hj2⟩ := List.mem_filter.mp hj
    have hreach : j ∈ reachAux st mh s [] := by simpa using hj2
    exact ⟨s, j, hs, reachAux_subset_plainReach st mh s [] j hreach, rfl⟩

/-- Witness for `C6_traversal_bound` at a concrete input. -/
theorem C6_traversal_bound_witness :
    (travRowOf cxState 0 1
        ∈ traverse_from_chunks cxState [PyVal.str "c1", PyVal.str "c2"] 2)
    ∧ (∃ s j, s ∈ seedIdxs cxState [PyVal.str "c1", PyVal.str "c2"]
        ∧ j ∈ plainReach cxState 2 s
        ∧ travRowOf cxState 0 1 = travRowOf cxState s j) :=
  ⟨by decide,
   (C6_traversal_bound cxState [PyVal.str "c1", PyVal.str "c2"] 2).2
     (travRowOf cxState 0 1) (by decide)⟩

/-! ## Claim C7: extraction resilience -/

/-- Claim C7: when the (fence-stripped) LLM response fails JSON parsing, or
when any other step of the extraction body errors, `extract` returns the
pair of two empty lists instead of propagating the exception. -/
theorem C7_extraction_resilience (loads : String → Option PyVal)
    (response chunk_id : String) :
    (∀ e, extract_core loads response chunk_id = .error e →
        extract loads response chunk_id = ([], []))
    ∧ (loads (stripFences response.trim) = Option.none →
        extract loads response chunk_id = ([], [])) := by
  constructor
  · intro e he
    simp [extract, he]
  · intro hl
    have hcore : extract_core loads response chunk_id = .error "JSONDecodeError" := by
      simp [extract_core, hl]
    simp [extract, hcore]

/-- Witness for `C7_extraction_resilience` at a concrete input. -/
theorem C7_extraction_resilience_witness :
    ((fun _ : String => (Option.none : Option PyVal))
        (stripFences ("This is not JSON".trim)) = Option.none)
    ∧ extract (fun _ => Option.none) "This is not JSON" "doc_x_chunk_0" = ([], []) :=
  ⟨rfl,
   (C7_extraction_resilience (fun _ => Option.none) "This is not JSON"
     "doc_x_chunk_0").2 rfl⟩

/-! ## Claim C8: chunk id derivation -/

/-- Claim C8, counterexample: the claim states chunk ids have the form
`<document-stem>_chunk_<index>`.  The chunker builds the id from
`metadata.get("filename", "doc")`, which the parser sets to the file name
with its extension, not to the stem: for `report.pdf` the produced id is
`report.pdf_chunk_0`, not `report_chunk_0`. -/
theorem C8_counterexample :
    (chunk_document ["hello"] [("filename", PyVal.str "report.pdf")]).map
        (fun c => lookupProp c.2 "chunk_id")
      = [some (PyVal.str "report.pdf_chunk_0")]
    ∧ pathStem "report.pdf" = "report"
    ∧ ("report.pdf_chunk_0" : String)
        ≠ pathStem "report.pdf" ++ "_chunk_" ++ toString 0 := by
  decide

/-- Claim C8 as amended: every chunk produced for a document carries id
`<filename>_chunk_<index>`, where `filename` is the metadata filename (the
ingested file's name with extension, falling back to `doc` when missing)
and the index is the chunk's position in the document. -/
theorem C8_chunk_ids (node_texts : List String)
    (metadata : List (String × PyVal)) (i : Nat)
    (h : i < (chunk_document node_texts metadata).length) :
    lookupProp ((chunk_document node_texts metadata).get ⟨i, h⟩).2 "chunk_id"
      = some (.str (pyStr ((lookupProp metadata "filename").getD (.str "doc"))
          ++ "_chunk_" ++ toString i))
    ∧ (chunk_document node_texts metadata).length = node_texts.length := by
  have hlen : (chunk_document node_texts metadata).length = node_texts.length := by
    simp [chunk_document]
  refine ⟨?_, hlen⟩
  rw [List.get_eq_getElem]
  simp only [chunk_document, List.getElem_map, List.getElem_enum]
  rw [lookupProp_dictSet_ne _ _ _ _ (by decide),
    lookupProp_dictSet_ne _ _ _ _ (by decide), lookupProp_dictSet_self]

/-- Witness for `C8_chunk_ids` at a concrete input. -/
theorem C8_chunk_ids_witness :
    lookupProp ((chunk_document ["a", "b"]
          [("filename", PyVal.str "x.pdf")]).get ⟨1, by decide⟩).2 "chunk_id"
      = some (PyVal.str "x.pdf_chunk_1")
    ∧ (chunk_document ["a", "b"] [("filename", PyVal.str "x.pdf")]).length = 2 := by
  have h := C8_chunk_ids ["a", "b"] [("filename", PyVal.str "x.pdf")] 1 (by decide)
  exact ⟨h.1.trans (by decide), h.2.trans (by decide)⟩

/-! ## Claim C9: query error shape -/

/-- Claim C9: when any step of retrieval or synthesis errors, `query`
returns a well-formed result whose answer is the fixed error prefix
followed by the error text and whose sources list is empty, instead of
propagating the exception. -/
theorem C9_query_error_shape (retrieval : Except String RetrieveResult)
    (llm_complete : String → Except String String) (query_text : String)
    (e : String) :
    (query_core retrieval llm_complete query_text = .error e →
      query retrieval llm_complete query_text
        = { answer := "Error processing query: " ++ e, sources := [],
            retrieval_info := .empty })
    ∧ (retrieval = .error e →
      query retrieval llm_complete query_text
        = { answer := "Error processing query: " ++ e, sources := [],
            retrieval_info := .empty }) := by
  have hmain : query_core retrieval llm_complete query_text = .error e →
      query retrieval llm_complete query_text
        = { answer := "Error processing query: " ++ e, sources := [],
            retrieval_info := .empty } := by
    intro h
    simp [query, h]
  refine ⟨hmain, ?_⟩
  intro hr
  apply hmain
  rw [hr]
  rfl

/-- Witness for `C9_query_error_shape` at a concrete input. -/
theorem C9_query_error_shape_witness :
    (query_core (.error "connection refused") (fun _ => .ok "fine") "q"
        = .error "connection refused")
    ∧ query (.error "connection refused") (fun _ => .ok "fine") "q"
        = { answer := "Error processing query: connection refused",
            sources := [], retrieval_info := .empty } := by
  refine ⟨rfl, ?_⟩
  have h := (C9_query_error_shape (.error "connection refused")
    (fun _ => .ok "fine") "q" "connection refused").1 rfl
  exact h.trans (by decide)

/-! ## Claim C10: default relationship type -/

theorem mergeEdge_exists (st : GraphState) (a b : Nat) (typ : String) :
    ∃ props, GRel.mk a b typ props ∈ (mergeEdge st a b typ).rels := by
  unfold mergeEdge
  by_cases hex : st.rels.any (edgeMatches a b typ)
  · rw [if_pos hex]
    obtain ⟨r, hr, hmatch⟩ := List.any_eq_true.mp hex
    refine ⟨r.props, ?_⟩
    have hre : r = GRel.mk a b typ r.props := by
      unfold edgeMatches at hmatch
      simp only [Bool.and_eq_true, beq_iff_eq] at hmatch
      obtain ⟨⟨h1, h2⟩, h3⟩ := hmatch
      cases r
      simp_all
    rw [← hre]
    exact hr
  · rw [if_neg hex]
    exact ⟨[], by simp⟩

theorem mergeEdge_preserves (st : GraphState) (a b a2 b2 : Nat)
    (typ typ2 : String) (props : List (String × PyVal))
    (h : GRel.mk a b typ props ∈ st.rels) :
    GRel.mk a b typ props ∈ (mergeEdge st a2 b2 typ2).rels := by
  unfold mergeEdge
  by_cases hex : st.rels.any (edgeMatches a2 b2 typ2)
  · rw [if_pos hex]; exact h
  · rw [if_neg hex]
    exact List.mem_append_left _ h

theorem mergeEdgeSetProps_exists (st : GraphState) (a b : Nat) (typ : String)
    (updates : List (String × PyVal)) :
    ∃ props, GRel.mk a b typ props ∈ (mergeEdgeSetProps st a b typ updates).rels := by
  obtain ⟨p0, hp0⟩ := mergeEdge_exists st a b typ
  refine ⟨cypherSetProps p0 updates, ?_⟩
  unfold mergeEdgeSetProps
  have hm := List.mem_map_of_mem (fun r =>
    if edgeMatches a b typ r then { r with props := cypherSetProps r.props updates }
    else r) hp0
  simpa [edgeMatches] using hm

theorem mergeEdgeSetProps_preserves (st : GraphState) (a b a2 b2 : Nat)
    (typ typ2 : String) (updates props : List (String × PyVal))
    (h : GRel.mk a b typ props ∈ st.rels) :
    ∃ props2,
      GRel.mk a b typ props2 ∈ (mergeEdgeSetProps st a2 b2 typ2 updates).rels := by
  have h1 : GRel.mk a b typ props ∈ (mergeEdge st a2 b2 typ2).rels :=
    mergeEdge_preserves st a b a2 b2 typ typ2 props h
  unfold mergeEdgeSetProps
  have hm := List.mem_map_of_mem (fun r =>
    if edgeMatches a2 b2 typ2 r then { r with props := cypherSetProps r.props updates }
    else r) h1
  by_cases hmatch : edgeMatches a2 b2 typ2 (GRel.mk a b typ props)
  · exact ⟨cypherSetProps props updates, by simpa [hmatch] using hm⟩
  · exact ⟨props, by simpa [hmatch] using hm⟩

theorem exists_edge_foldl (typ : String) (fp : List (String × PyVal))
    (pairs : List (Nat × Nat)) (st : GraphState) :
    (∀ q : Nat × Nat, (∃ props, GRel.mk q.1 q.2 typ props ∈ st.rels) →
        ∃ props, GRel.mk q.1 q.2 typ props ∈
          (pairs.foldl (fun acc p =>
             if fp.isEmpty then mergeEdge acc p.1 p.2 typ
             else mergeEdgeSetProps acc p.1 p.2 typ fp) st).rels)
    ∧ ∀ p ∈ pairs,
        ∃ props, GRel.mk p.1 p.2 typ props ∈
          (pairs.foldl (fun acc p =>
             if fp.isEmpty then mergeEdge acc p.1 p.2 typ
             else mergeEdgeSetProps acc p.1 p.2 typ fp) st).rels := by
  induction pairs generalizing st with
  | nil =>
    refine ⟨fun q hq => by simpa using hq, fun p hp => absurd hp (by simp)⟩
  | cons hd tl ih =>
    have hstep : ∀ (st2 : GraphState) (q : Nat × Nat),
        (∃ props, GRel.mk q.1 q.2 typ props ∈ st2.rels) →
        ∃ props, GRel.mk q.1 q.2 typ props ∈
          ((if fp.isEmpty then mergeEdge st2 hd.1 hd.2 typ
            else mergeEdgeSetProps st2 hd.1 hd.2 typ fp)).rels := by
      intro st2 q hq
      obtain ⟨pr, hpr⟩ := hq
      by_cases hfp : fp.isEmpty
      · rw [if_pos hfp]
        exact ⟨pr, mergeEdge_preserves st2 q.1 q.2 hd.1 hd.2 typ typ pr hpr⟩
      · rw [if_neg hfp]
        exact mergeEdgeSetProps_preserves st2 q.1 q.2 hd.1 hd.2 typ typ fp pr hpr
    have hnew : ∀ st2 : GraphState,
        ∃ props, GRel.mk hd.1 hd.2 typ props ∈
          ((if fp.isEmpty then mergeEdge st2 hd.1 hd.2 typ
            else mergeEdgeSetProps st2 hd.1 hd.2 typ fp)).rels := by
      intro st2
      by_cases hfp : fp.isEmpty
      · rw [if_pos hfp]
        exact mergeEdge_exists st2 hd.1 hd.2 typ
      · rw [if_neg hfp]
        exact mergeEdgeSetProps_exists st2 hd.1 hd.2 typ fp
    constructor
    · intro q hq
      rw [List.foldl_cons]
      exact (ih _).1 q (hstep st q hq)
    · intro p hp
      rw [List.foldl_cons]
      rcases List.mem_cons.mp hp with rfl | htl
      · exact (ih _).1 p (hnew st)
      · exact (ih _).2 p htl

/-- Claim C10: a relationship whose dict has truthy `from` and `to`
endpoint ids but no `type` key is not dropped: whenever both endpoints
match nodes of the store, a relationship typed `RELATES_TO` is merged
between each pair of matched endpoints. -/
theorem C10_default_relationship_type (st : GraphState)
    (r : List (String × PyVal)) (f t : PyVal)
    (hf : lookupProp r "from" = some f) (hft : pyTruthy f = true)
    (ht : lookupProp r "to" = some t) (htt : pyTruthy t = true)
    (hnotype : lookupProp r "type" = Option.none)
    (a b : Nat) (ha : a ∈ matchingIdxs st .none f)
    (hb : b ∈ matchingIdxs st .none t) :
    ∃ props, GRel.mk a b "RELATES_TO" props
        ∈ (create_relationships st [PyVal.dict r]).1.rels := by
  have hfrom : (lookupProp r "from").getD .none = f := by rw [hf]; rfl
  have hto : (lookupProp r "to").getD .none = t := by rw [ht]; rfl
  have htyp : (lookupProp r "type").getD (.str "RELATES_TO") = .str "RELATES_TO" := by
    rw [hnotype]; rfl
  have hmem : (a, b) ∈ (matchingIdxs st .none f).flatMap
      (fun a2 => (matchingIdxs st .none t).map (fun b2 => (a2, b2))) :=
    List.mem_flatMap.mpr ⟨a, ha, List.mem_map.mpr ⟨b, hb, rfl⟩⟩
  simp only [create_relationships, hfrom, hto, htyp, hft, htt, Bool.not_true,
    Bool.or_self, Bool.false_eq_true, if_false]
  exact (exists_edge_foldl "RELATES_TO"
    (flattenPy ((lookupProp r "properties").getD (.dict []))) _ st).2 (a, b) hmem

/-- Test fixture: two bare nodes with ids `a` and `b`. -/
def relState : GraphState :=
  { nodes :=
      [ { labels := ["Concept"], props := [("id", .str "a"), ("name", .str "A")] },
        { labels := ["Concept"], props := [("id", .str "b"), ("name", .str "B")] } ],
    rels := [] }

/-- Witness for `C10_default_relationship_type` at a concrete input. -/
theorem C10_default_relationship_type_witness :
    (lookupProp [("from", PyVal.str "a"), ("to", PyVal.str "b")] "from"
        = some (PyVal.str "a"))
    ∧ (lookupProp [("from", PyVal.str "a"), ("to", PyVal.str "b")] "type"
        = Option.none)
    ∧ ((0 : Nat) ∈ matchingIdxs relState .none (PyVal.str "a"))
    ∧ ∃ props, GRel.mk 0 1 "RELATES_TO" props
        ∈ (create_relationships relState
            [PyVal.dict [("from", PyVal.str "a"), ("to", PyVal.str "b")]]).1.rels :=
  ⟨by decide, by decide, by decide,
   C10_default_relationship_type relState
     [("from", PyVal.str "a"), ("to", PyVal.str "b")]
     (PyVal.str "a") (PyVal.str "b") (by decide) (by decide) (by decide)
     (by decide) (by decide) 0 1 (by decide) (by decide)⟩

end RA
